import Mathlib

/-!
Verification development for the smart-mall-bot query-orchestration engine.

The repository ships the orchestration engine (`modules/engine.py`, class
`MallAssistant`), the retriever (`modules/tools.py`, `find_similar_shops`)
and the conversation state store behind them.  The repository snapshot at
hand holds only their callers (`steps.ipynb`) and the two README documents,
so the engine, retriever and store are modelled here from the spec, and
each such definition carries a doc comment saying so.
-/

namespace MallBot

/-- A normalized shop record: identifier, name, category, description,
keyword set and floor/location label. -/
structure ShopRecord where
  id : String
  name : String
  category : String
  description : String
  keywords : List String
  location : String
deriving DecidableEq

/-- A retrieval candidate: a shop record together with its similarity
score.  Similarity is modelled as an integer ordering key (the spec only
uses the ordering of scores, never their numeric value). -/
structure RetrievalCandidate where
  shop : ShopRecord
  score : Int
deriving DecidableEq

/-- Retrieval-layer error taxonomy. -/
inductive RetrievalError where
  | retrievalUnavailable
  | embeddingFailure
deriving DecidableEq

/-- Which stage of a turn failed. -/
inductive TurnCause where
  | retrieval
  | generation
deriving DecidableEq

/-- Turn-level failure surfaced to the caller. -/
inductive TurnError where
  | turnFailed (cause : TurnCause)
deriving DecidableEq

/-- Role of a conversation turn. -/
inductive Role where
  | user
  | assistant
deriving DecidableEq

/-- One conversation turn: a role and its text content.  Sequence order is
the list order inside a thread. -/
structure ConversationTurn where
  role : Role
  content : String
deriving DecidableEq

/-- Per-thread state: the ordered turn sequence, plus the last retrieved
candidate set recorded in history (used by the skip-retrieval path). -/
structure ThreadState where
  turns : List ConversationTurn
  lastRetrieved : Option (List RetrievalCandidate)
deriving DecidableEq

/-- The fresh (absent) thread: empty history, no recorded retrieval. -/
def ThreadState.empty : ThreadState := ⟨[], none⟩

/-- Modelled from the spec: the Conversation State Store
(`load(thread_id)` / `append(thread_id, turns)` of section 4.3), a
thread-id keyed mapping to ordered turn histories, realized as an
association list. -/
abbrev Store := List (String × ThreadState)

/-- Look a thread up in the store; an absent thread is the empty thread. -/
def loadThread (store : Store) (tid : String) : ThreadState :=
  match List.find? (fun p => p.1 = tid) store with
  | some p => p.2
  | none => ThreadState.empty

/-- Modelled from the spec: the store contract
`load(thread_id) -> ordered sequence of ConversationTurn` (empty if
unknown). -/
def load (store : Store) (tid : String) : List ConversationTurn :=
  (loadThread store tid).turns

/-- Replace (or create) the state of one thread, leaving every other
thread untouched. -/
def setThread (store : Store) (tid : String) (t : ThreadState) : Store :=
  match store with
  | [] => [(tid, t)]
  | p :: ps => if p.1 = tid then (tid, t) :: ps else p :: setThread ps tid t

/-- Drop candidates whose shop identifier was already seen (first
occurrence wins), so the retrieval result never carries duplicate shop
identifiers. -/
def dedupById (seen : List String) : List RetrievalCandidate → List RetrievalCandidate
  | [] => []
  | c :: cs =>
      if c.shop.id ∈ seen then dedupById seen cs
      else c :: dedupById (c.shop.id :: seen) cs

/-- Stable descending insertion by a scoring key: a candidate is placed
before the first already-sorted candidate whose key is not larger, so
candidates with equal keys keep their original relative order. -/
def insertDesc (key : RetrievalCandidate → Int) (c : RetrievalCandidate) :
    List RetrievalCandidate → List RetrievalCandidate
  | [] => [c]
  | d :: ds => if key d ≤ key c then c :: d :: ds else d :: insertDesc key c ds

/-- Stable sort by descending key (insertion sort), the re-ranking pass:
ties are broken by preserving the original similarity rank. -/
def rerankSort (key : RetrievalCandidate → Int) :
    List RetrievalCandidate → List RetrievalCandidate
  | [] => []
  | c :: cs => insertDesc key c (rerankSort key cs)

/-- Modelled from the spec: the Retriever's collaborators
(`modules/tools.py` is absent from the snapshot).  The Semantic Index is
an opaque search function, query text and fetch count to candidates in
descending similarity order; `none` models an unavailable index.  The
re-rank policy is a pure scoring function of query and candidate. -/
structure RetrieverEnv where
  index : Option (String → Nat → List RetrievalCandidate)
  rerankScore : String → RetrievalCandidate → Int
  overfetchFactor : Nat

/-- Modelled from the spec: `retrieve(query_text, top_k)`
(`find_similar_shops` of the absent `modules/tools.py`): over-fetch from
the Semantic Index, deduplicate by shop identifier, re-rank with a stable
sort, truncate to `top_k`.  An unavailable index fails with
`RetrievalUnavailable`; no empty-result fallback. -/
def retrieve (env : RetrieverEnv) (query : String) (topK : Nat) :
    Except RetrievalError (List RetrievalCandidate) :=
  match env.index with
  | none => .error .retrievalUnavailable
  | some search =>
      let fetched := search query (env.overfetchFactor * topK)
      let deduped := dedupById [] fetched
      let reranked := rerankSort (env.rerankScore query) deduped
      .ok (List.take topK reranked)

/-- The retrieval decision produced by the classification strategy:
either fresh retrieval is needed, or prior context is reused, optionally
with the anaphoric ordinal the utterance points at ("the third one"). -/
inductive Decision where
  | needsRetrieval
  | reuseContext (ordinal : Option Nat)
deriving DecidableEq

/-- The assembled prompt: persona template, bounded history window,
serialized retrieved context, the candidate an anaphoric ordinal resolves
to (if any), and the current utterance.  Constructed fresh per turn, not
persisted. -/
structure PromptEnvelope where
  persona : String
  history : List ConversationTurn
  context : List RetrievalCandidate
  focus : Option RetrievalCandidate
  utterance : String

/-- Modelled from the spec: the engine `MallAssistant`
(`modules/engine.py` is absent from the snapshot) as an explicit value
holding its injected collaborators: retriever, configured top-k and
history-window bound, persona template, the replaceable utterance
classification strategy, and the Generation Service client (`none`
models a generation failure). -/
structure MallAssistant where
  retriever : RetrieverEnv
  topK : Nat
  windowN : Nat
  persona : String
  classify : String → Decision
  generate : PromptEnvelope → Option String

/-- The bounded history window: the most recent `n` turns, oldest-first
(histories are stored oldest-first, so this is a suffix). -/
def historyWindow (n : Nat) (turns : List ConversationTurn) : List ConversationTurn :=
  List.drop (turns.length - n) turns

/-- Modelled from the spec: the retrieval-decision step of the turn state
machine.  If the utterance classifies as an anaphoric reference and a
prior retrieved set is recorded in history, reuse that set (skip
retrieval); otherwise invoke the Retriever, propagating
`RetrievalUnavailable` as `TurnFailed{cause: retrieval}`. -/
def retrievedContext (env : MallAssistant) (thread : ThreadState) (u : String) :
    Except TurnError (List RetrievalCandidate × Option Nat) :=
  match env.classify u, thread.lastRetrieved with
  | .reuseContext ord, some prev => .ok (prev, ord)
  | _, _ =>
      match retrieve env.retriever u env.topK with
      | .error _ => .error (.turnFailed .retrieval)
      | .ok cs => .ok (cs, none)

/-- Modelled from the spec: prompt assembly, persona + bounded history
window + retrieved context + resolved anaphoric ordinal + current
utterance.  Ordinal `n` resolves to the candidate at rank `n` (1-based)
of the context. -/
def assemblePrompt (env : MallAssistant) (thread : ThreadState) (u : String)
    (cs : List RetrievalCandidate) (ord : Option Nat) : PromptEnvelope :=
  { persona := env.persona
    history := historyWindow env.windowN thread.turns
    context := cs
    focus := ord.bind (fun n => List.get? cs (n - 1))
    utterance := u }

/-- Modelled from the spec: `MallAssistant.process_user_query`, the
per-utterance turn state machine.  Load the thread (absent is empty, not
an error), decide retrieval, assemble the prompt, generate; on success
append the user/assistant turn pair as one logical store update; on any
failure return the error and the store unchanged. -/
def processUserQuery (env : MallAssistant) (store : Store) (tid u : String) :
    Except TurnError String × Store :=
  let thread := loadThread store tid
  match retrievedContext env thread u with
  | .error e => (.error e, store)
  | .ok (cs, ord) =>
      match env.generate (assemblePrompt env thread u cs ord) with
      | none => (.error (.turnFailed .generation), store)
      | some resp =>
          (.ok resp,
           setThread store tid
             { turns := thread.turns ++ [⟨Role.user, u⟩, ⟨Role.assistant, resp⟩]
               lastRetrieved := some cs })

/-- Modelled from the spec: `MallAssistant.get_response(user_query)`, the
single-turn entry point documented in the README workflow (query input →
context retrieval → prompt construction → generation → response).  It
takes only the utterance, injects no history and touches no store. -/
def getResponse (env : MallAssistant) (u : String) : Except TurnError String :=
  match retrieve env.retriever u env.topK with
  | .error _ => .error (.turnFailed .retrieval)
  | .ok cs =>
      match env.generate (assemblePrompt env ThreadState.empty u cs none) with
      | none => .error (.turnFailed .generation)
      | some resp => .ok resp

/-- The engine's API surface as seen by the notebook: either a threaded
`process_user_query` call or a thread-less `get_response` call. -/
inductive ApiCall where
  | processQuery (tid u : String)
  | getResp (u : String)

/-- One API invocation as a transition on the store: `process_user_query`
runs the turn state machine; `get_response` runs the stateless single-turn
pipeline, which has no access to the store. -/
def apiStep (env : MallAssistant) (store : Store) : ApiCall → Except TurnError String × Store
  | .processQuery tid u => processUserQuery env store tid u
  | .getResp u => (getResponse env u, store)

/-- Run a list of utterances serially through one thread. -/
def runSerial (env : MallAssistant) (tid : String) : Store → List String → Store
  | store, [] => store
  | store, u :: us => runSerial env tid (processUserQuery env store tid u).2 us

/-- Interleave user/assistant pairs into a turn sequence. -/
def turnPairs : List (String × String) → List ConversationTurn
  | [] => []
  | (u, r) :: ps => ⟨Role.user, u⟩ :: ⟨Role.assistant, r⟩ :: turnPairs ps

/-! ## Concrete instances used to exercise the definitions -/

/-- A concrete shop record (rank 1 in the sample index). -/
def shopA : ShopRecord := ⟨"shop-a", "Alpha Cafe", "food", "a halal cafe", ["halal", "coffee"], "LG1"⟩

/-- A concrete shop record (rank 2 in the sample index). -/
def shopB : ShopRecord := ⟨"shop-b", "Beta Books", "retail", "a bookstore", ["books"], "L2"⟩

/-- A concrete shop record (rank 3 in the sample index). -/
def shopC : ShopRecord := ⟨"shop-c", "Gamma Gym", "fitness", "a gym", ["fitness"], "L3"⟩

/-- Sample candidate A, highest similarity. -/
def candA : RetrievalCandidate := ⟨shopA, 3⟩

/-- Sample candidate B, middle similarity. -/
def candB : RetrievalCandidate := ⟨shopB, 2⟩

/-- Sample candidate C, lowest similarity. -/
def candC : RetrievalCandidate := ⟨shopC, 1⟩

/-- A sample Semantic Index search returning the three candidates in
descending similarity order. -/
def searchW : String → Nat → List RetrievalCandidate := fun _ _ => [candA, candB, candC]

/-- A sample engine: available index, constant re-rank score, top-k 2,
window 2, a classifier that recognizes one anaphoric utterance, and a
Generation Service that always answers. -/
def envW : MallAssistant :=
  { retriever := { index := some searchW, rerankScore := fun _ _ => 0, overfetchFactor := 2 }
    topK := 2
    windowN := 2
    persona := "Sam"
    classify := fun u =>
      if u = "tell me more about the third one" then Decision.reuseContext (some 3)
      else Decision.needsRetrieval
    generate := fun _ => some "ok" }

/-- The sample engine with a failing Generation Service. -/
def envFailGen : MallAssistant := { envW with generate := fun _ => none }

/-- A second, independently constructed engine (different persona and
window) sharing only the external collaborators with the first. -/
def envW2 : MallAssistant :=
  { retriever := { index := some searchW, rerankScore := fun _ _ => 0, overfetchFactor := 3 }
    topK := 3
    windowN := 4
    persona := "Sam again"
    classify := fun _ => Decision.needsRetrieval
    generate := fun _ => some "ok" }

/-- The sample engine with an unavailable Semantic Index. -/
def envNoIdx : MallAssistant := { envW with retriever := { envW.retriever with index := none } }

/-- A store holding one thread with one prior turn pair whose retrieval
returned the candidates A, B, C in that rank order. -/
def storeW : Store :=
  [("t", ⟨[⟨Role.user, "u0"⟩, ⟨Role.assistant, "r0"⟩], some [candA, candB, candC]⟩)]

/-! ## Store lemmas -/

theorem loadThread_setThread_self (store : Store) (tid : String) (t : ThreadState) :
    loadThread (setThread store tid t) tid = t := by
  induction store with
  | nil => simp [setThread, loadThread, List.find?]
  | cons p ps ih =>
      by_cases h : p.1 = tid
      · simp [setThread, h, loadThread, List.find?]
      · simpa [setThread, h, loadThread, List.find?] using ih

/-! ## Re-rank sort lemmas: permutation, stability, all-tie identity -/

theorem insertDesc_perm (key : RetrievalCandidate → Int) (c : RetrievalCandidate)
    (l : List RetrievalCandidate) : List.Perm (insertDesc key c l) (c :: l) := by
  induction l with
  | nil => exact List.Perm.refl _
  | cons d ds ih =>
      by_cases h : key d ≤ key c
      · simp [insertDesc, h]
      · simp only [insertDesc, if_neg h]
        exact (ih.cons d).trans (List.Perm.swap c d ds)

theorem rerankSort_perm (key : RetrievalCandidate → Int) (l : List RetrievalCandidate) :
    List.Perm (rerankSort key l) l := by
  induction l with
  | nil => exact List.Perm.refl _
  | cons c cs ih => exact (insertDesc_perm key c (rerankSort key cs)).trans (ih.cons c)

theorem filter_insertDesc (key : RetrievalCandidate → Int) (v : Int)
    (c : RetrievalCandidate) (l : List RetrievalCandidate) :
    List.filter (fun d => key d = v) (insertDesc key c l)
      = if key c = v then c :: List.filter (fun d => key d = v) l
        else List.filter (fun d => key d = v) l := by
  induction l with
  | nil => by_cases h : key c = v <;> simp [insertDesc, h]
  | cons d ds ih =>
      simp only [insertDesc]
      by_cases hdc : key d ≤ key c
      · rw [if_pos hdc]
        by_cases h : key c = v
        · simp [List.filter_cons, h]
        · simp [List.filter_cons, h]
      · simp only [if_neg hdc, List.filter_cons]
        by_cases h : key c = v
        · have hd : ¬ (key d = v) := fun hdv => hdc (le_of_eq (hdv.trans h.symm))
          simp [hd, ih, h]
        · by_cases hd : key d = v <;> simp [hd, ih, h]

theorem rerankSort_filter (key : RetrievalCandidate → Int) (l : List RetrievalCandidate)
    (v : Int) :
    List.filter (fun d => key d = v) (rerankSort key l)
      = List.filter (fun d => key d = v) l := by
  induction l with
  | nil => rfl
  | cons c cs ih =>
      simp only [rerankSort]
      rw [filter_insertDesc]
      by_cases h : key c = v <;> simp [h, ih, List.filter_cons]

theorem insertDesc_of_le (key : RetrievalCandidate → Int) (c : RetrievalCandidate)
    (l : List RetrievalCandidate) (h : ∀ d ∈ l, key d ≤ key c) :
    insertDesc key c l = c :: l := by
  cases l with
  | nil => rfl
  | cons d ds => simp [insertDesc, h d (List.mem_cons_self d ds)]

theorem rerankSort_of_const (key : RetrievalCandidate → Int) (l : List RetrievalCandidate)
    (h : ∀ c ∈ l, ∀ d ∈ l, key c = key d) : rerankSort key l = l := by
  induction l with
  | nil => rfl
  | cons c cs ih =>
      have hcs : rerankSort key cs = cs :=
        ih (fun a ha b hb => h a (List.mem_cons_of_mem c ha) b (List.mem_cons_of_mem c hb))
      simp only [rerankSort, hcs]
      exact insertDesc_of_le key c cs
        (fun d hd => le_of_eq (h d (List.mem_cons_of_mem c hd) c (List.mem_cons_self c cs)))

/-! ## Deduplication lemmas -/

theorem dedupById_nodup (l : List RetrievalCandidate) : ∀ seen : List String,
    (List.map (fun c => c.shop.id) (dedupById seen l)).Nodup
    ∧ ∀ c ∈ dedupById seen l, c.shop.id ∉ seen := by
  induction l with
  | nil => intro seen; simp [dedupById]
  | cons c cs ih =>
      intro seen
      by_cases h : c.shop.id ∈ seen
      · have hred : dedupById seen (c :: cs) = dedupById seen cs := by
          simp [dedupById, h]
        rw [hred]
        exact ih seen
      · obtain ⟨ihn, ihs⟩ := ih (c.shop.id :: seen)
        simp only [dedupById, if_neg h, List.map_cons, List.nodup_cons]
        refine ⟨⟨?_, ihn⟩, ?_⟩
        · intro hmem
          obtain ⟨d, hd, hid⟩ := List.mem_map.1 hmem
          exact ihs d hd (hid ▸ List.mem_cons_self _ _)
        · intro d hd
          rcases List.mem_cons.1 hd with rfl | hd
          · exact h
          · exact fun hs => ihs d hd (List.mem_cons_of_mem _ hs)

/-! ## Engine-step lemmas -/

theorem retrievedContext_ok_of_index (env : MallAssistant) (thread : ThreadState)
    (u : String) (f : String → Nat → List RetrievalCandidate)
    (hidx : env.retriever.index = some f) :
    ∃ cs ord, retrievedContext env thread u = Except.ok (cs, ord) := by
  have hr : ∃ cs, retrieve env.retriever u env.topK = Except.ok cs :=
    ⟨List.take env.topK (rerankSort (env.retriever.rerankScore u)
        (dedupById [] (f u (env.retriever.overfetchFactor * env.topK)))),
     by simp [retrieve, hidx]⟩
  obtain ⟨cs, hr⟩ := hr
  cases hc : env.classify u with
  | needsRetrieval =>
      cases hl : thread.lastRetrieved with
      | none => exact ⟨cs, none, by simp [retrievedContext, hc, hl, hr]⟩
      | some prev => exact ⟨cs, none, by simp [retrievedContext, hc, hl, hr]⟩
  | reuseContext ord =>
      cases hl : thread.lastRetrieved with
      | none => exact ⟨cs, none, by simp [retrievedContext, hc, hl, hr]⟩
      | some prev => exact ⟨prev, ord, by simp [retrievedContext, hc, hl]⟩

theorem processUserQuery_step (env : MallAssistant) (store : Store) (tid u : String)
    (f : String → Nat → List RetrievalCandidate)
    (hidx : env.retriever.index = some f)
    (hgen : ∀ p, ∃ r, env.generate p = some r) :
    ∃ r cs, processUserQuery env store tid u
      = (Except.ok r,
         setThread store tid
           { turns := (loadThread store tid).turns ++ [⟨Role.user, u⟩, ⟨Role.assistant, r⟩]
             lastRetrieved := some cs }) := by
  obtain ⟨cs, ord, hrc⟩ := retrievedContext_ok_of_index env (loadThread store tid) u f hidx
  obtain ⟨r, hg⟩ := hgen (assemblePrompt env (loadThread store tid) u cs ord)
  exact ⟨r, cs, by simp [processUserQuery, hrc, hg]⟩

theorem processUserQuery_ok_shape (env : MallAssistant) (store : Store) (tid u resp : String)
    (h : (processUserQuery env store tid u).1 = Except.ok resp) :
    ∃ cs, (processUserQuery env store tid u).2
        = setThread store tid
            { turns := (loadThread store tid).turns ++ [⟨Role.user, u⟩, ⟨Role.assistant, resp⟩]
              lastRetrieved := some cs } := by
  cases hrc : retrievedContext env (loadThread store tid) u with
  | error e => simp [processUserQuery, hrc] at h
  | ok p =>
      obtain ⟨cs, ord⟩ := p
      cases hg : env.generate (assemblePrompt env (loadThread store tid) u cs ord) with
      | none => simp [processUserQuery, hrc, hg] at h
      | some r =>
          have hre : r = resp := by simpa [processUserQuery, hrc, hg] using h
          subst hre
          exact ⟨cs, by simp [processUserQuery, hrc, hg]⟩

theorem turnPairs_length (prs : List (String × String)) :
    (turnPairs prs).length = 2 * prs.length := by
  induction prs with
  | nil => rfl
  | cons p ps ih =>
      obtain ⟨u, r⟩ := p
      simp [turnPairs, ih]
      ring

theorem runSerial_load (env : MallAssistant) (tid : String)
    (hidx : ∃ f, env.retriever.index = some f)
    (hgen : ∀ p, ∃ r, env.generate p = some r) :
    ∀ (us : List String) (store : Store), ∃ prs : List (String × String),
      List.map Prod.fst prs = us ∧
      load (runSerial env tid store us) tid = load store tid ++ turnPairs prs := by
  intro us
  induction us with
  | nil => exact fun store => ⟨[], rfl, by simp [runSerial, turnPairs]⟩
  | cons u us ih =>
      intro store
      obtain ⟨f, hf⟩ := hidx
      obtain ⟨r, cs, hstep⟩ := processUserQuery_step env store tid u f hf hgen
      obtain ⟨prs, hmap, hload⟩ := ih (processUserQuery env store tid u).2
      refine ⟨(u, r) :: prs, by simp [hmap], ?_⟩
      have hrun : runSerial env tid store (u :: us)
          = runSerial env tid (processUserQuery env store tid u).2 us := rfl
      rw [hrun, hload, hstep]
      simp [load, loadThread_setThread_self, turnPairs]

/-! ## Claim theorems -/

/-- Claim C1: whenever the Generation Service fails on the assembled
prompt of a turn, that turn aborts with TurnFailed cause generation, the
store is returned unchanged, and load of the thread after the failed turn
is exactly the turn sequence that existed before the turn began. -/
theorem C1_generation_failure_atomic (env : MallAssistant) (store : Store) (tid u : String)
    (cs : List RetrievalCandidate) (ord : Option Nat)
    (hrc : retrievedContext env (loadThread store tid) u = Except.ok (cs, ord))
    (hg : env.generate (assemblePrompt env (loadThread store tid) u cs ord) = none) :
    processUserQuery env store tid u
      = (Except.error (TurnError.turnFailed TurnCause.generation), store)
    ∧ load (processUserQuery env store tid u).2 tid = load store tid := by
  have h1 : processUserQuery env store tid u
      = (Except.error (TurnError.turnFailed TurnCause.generation), store) := by
    simp [processUserQuery, hrc, hg]
  exact ⟨h1, by rw [h1]⟩

theorem C1_witness :
    processUserQuery envFailGen [] "t" "hi"
      = (Except.error (TurnError.turnFailed TurnCause.generation), ([] : Store))
    ∧ load (processUserQuery envFailGen [] "t" "hi").2 "t" = load ([] : Store) "t" :=
  C1_generation_failure_atomic envFailGen [] "t" "hi" [candA, candB] none rfl rfl

/-- Claim C2: a sequence of N successful turns submitted serially to one
thread, starting from an empty thread, leaves load of that thread equal to
the 2N turns in submission order, strictly alternating user then
assistant, appended as user/assistant pairs. -/
theorem C2_serial_turns (env : MallAssistant) (tid : String) (us : List String) (store : Store)
    (hidx : ∃ f, env.retriever.index = some f)
    (hgen : ∀ p, ∃ r, env.generate p = some r)
    (hempty : load store tid = []) :
    ∃ prs : List (String × String),
      List.map Prod.fst prs = us
      ∧ load (runSerial env tid store us) tid = turnPairs prs
      ∧ (load (runSerial env tid store us) tid).length = 2 * us.length := by
  obtain ⟨prs, hmap, hload⟩ := runSerial_load env tid hidx hgen us store
  have hlen : prs.length = us.length := by
    have := congrArg List.length hmap
    simpa using this
  refine ⟨prs, hmap, ?_, ?_⟩
  · rw [hload, hempty, List.nil_append]
  · rw [hload, hempty, List.nil_append, turnPairs_length, hlen]

theorem C2_witness :
    ∃ prs : List (String × String),
      List.map Prod.fst prs = ["q one", "q two"]
      ∧ load (runSerial envW "t" [] ["q one", "q two"]) "t" = turnPairs prs
      ∧ (load (runSerial envW "t" [] ["q one", "q two"]) "t").length
          = 2 * (["q one", "q two"] : List String).length :=
  C2_serial_turns envW "t" ["q one", "q two"] []
    ⟨searchW, rfl⟩ (fun _ => ⟨"ok", rfl⟩) rfl

/-- Claim C3: for a non-empty query and top-k at least 1, with the
Semantic Index available, retrieve returns a list of at most K candidates
carrying pairwise distinct shop identifiers, obtained by over-fetching,
deduplicating, re-ranking and truncating to K. -/
theorem C3_retrieve_bounded (env : RetrieverEnv) (q : String) (K : Nat)
    (f : String → Nat → List RetrievalCandidate)
    (hq : q ≠ "") (hK : 1 ≤ K) (hidx : env.index = some f) :
    ∃ cs, retrieve env q K = Except.ok cs
      ∧ cs.length ≤ K
      ∧ (List.map (fun c => c.shop.id) cs).Nodup := by
  refine ⟨List.take K (rerankSort (env.rerankScore q)
      (dedupById [] (f q (env.overfetchFactor * K)))),
    by simp [retrieve, hidx], ?_, ?_⟩
  · exact List.length_take_le K _
  · have hnd : (List.map (fun c => c.shop.id)
        (dedupById [] (f q (env.overfetchFactor * K)))).Nodup :=
      (dedupById_nodup _ _).1
    have hperm : List.Perm
        (List.map (fun c => c.shop.id)
          (rerankSort (env.rerankScore q) (dedupById [] (f q (env.overfetchFactor * K)))))
        (List.map (fun c => c.shop.id) (dedupById [] (f q (env.overfetchFactor * K)))) :=
      (rerankSort_perm _ _).map _
    have hnd2 : (List.map (fun c => c.shop.id)
        (rerankSort (env.rerankScore q) (dedupById [] (f q (env.overfetchFactor * K))))).Nodup :=
      hperm.nodup_iff.2 hnd
    rw [List.map_take]
    exact List.Nodup.sublist (List.take_sublist K _) hnd2

theorem C3_witness :
    ∃ cs, retrieve envW.retriever "coffee" 2 = Except.ok cs
      ∧ cs.length ≤ 2
      ∧ (List.map (fun c => c.shop.id) cs).Nodup :=
  C3_retrieve_bounded envW.retriever "coffee" 2 searchW (by decide) (by decide) rfl

/-- Claim C4: when the utterance classifies as an anaphoric reference
with ordinal n and a prior retrieved set is recorded in the thread, the
turn takes the skip-retrieval path: the context step returns that prior
set, the whole turn is unaffected by replacing the Semantic Index (no new
Retriever call), the assembled prompt's retrieved context is the last
retrieved set, and the ordinal resolves to the candidate at rank n. -/
theorem C4_anaphora_skip (env : MallAssistant) (store : Store) (tid u : String)
    (prev : List RetrievalCandidate) (n : Nat)
    (idx : Option (String → Nat → List RetrievalCandidate))
    (hprev : (loadThread store tid).lastRetrieved = some prev)
    (hcl : env.classify u = Decision.reuseContext (some n)) :
    retrievedContext env (loadThread store tid) u = Except.ok (prev, some n)
    ∧ processUserQuery { env with retriever := { env.retriever with index := idx } } store tid u
        = processUserQuery env store tid u
    ∧ (assemblePrompt env (loadThread store tid) u prev (some n)).context = prev
    ∧ (assemblePrompt env (loadThread store tid) u prev (some n)).focus
        = List.get? prev (n - 1) := by
  have h1 : retrievedContext env (loadThread store tid) u = Except.ok (prev, some n) := by
    simp [retrievedContext, hcl, hprev]
  have h1i : retrievedContext { env with retriever := { env.retriever with index := idx } }
      (loadThread store tid) u = Except.ok (prev, some n) := by
    simp [retrievedContext, hcl, hprev]
  have hap : assemblePrompt { env with retriever := { env.retriever with index := idx } }
      (loadThread store tid) u prev (some n)
      = assemblePrompt env (loadThread store tid) u prev (some n) := rfl
  refine ⟨h1, ?_, rfl, rfl⟩
  simp [processUserQuery, h1, h1i, hap]

theorem C4_witness :
    retrievedContext envW (loadThread storeW "t") "tell me more about the third one"
      = Except.ok ([candA, candB, candC], some 3)
    ∧ processUserQuery { envW with retriever := { envW.retriever with index := none } }
        storeW "t" "tell me more about the third one"
        = processUserQuery envW storeW "t" "tell me more about the third one"
    ∧ (assemblePrompt envW (loadThread storeW "t") "tell me more about the third one"
        [candA, candB, candC] (some 3)).focus = some candC := by
  have h := C4_anaphora_skip envW storeW "t" "tell me more about the third one"
    [candA, candB, candC] 3 none rfl rfl
  exact ⟨h.1, h.2.1, by rw [h.2.2.2]; rfl⟩

/-- Claim C5: when the Semantic Index is unavailable and the turn is on
the retrieval path, retrieve fails with RetrievalUnavailable (it never
substitutes an empty candidate list), the turn aborts with TurnFailed
cause retrieval with the store unchanged, and the outcome is the same for
every Generation Service (no response is generated). -/
theorem C5_retrieval_unavailable (env : MallAssistant) (store : Store) (tid u : String)
    (g : PromptEnvelope → Option String)
    (hidx : env.retriever.index = none)
    (hpath : env.classify u = Decision.needsRetrieval
      ∨ (loadThread store tid).lastRetrieved = none) :
    retrieve env.retriever u env.topK = Except.error RetrievalError.retrievalUnavailable
    ∧ processUserQuery env store tid u
        = (Except.error (TurnError.turnFailed TurnCause.retrieval), store)
    ∧ processUserQuery { env with generate := g } store tid u
        = (Except.error (TurnError.turnFailed TurnCause.retrieval), store) := by
  have hr : retrieve env.retriever u env.topK
      = Except.error RetrievalError.retrievalUnavailable := by
    simp [retrieve, hidx]
  have hrc : retrievedContext env (loadThread store tid) u
      = Except.error (TurnError.turnFailed TurnCause.retrieval) := by
    rcases hpath with hc | hl
    · cases hlr : (loadThread store tid).lastRetrieved <;>
        simp [retrievedContext, hc, hlr, hr]
    · cases hc : env.classify u <;> simp [retrievedContext, hc, hl, hr]
  have hrc2 : retrievedContext { env with generate := g } (loadThread store tid) u
      = Except.error (TurnError.turnFailed TurnCause.retrieval) := hrc
  exact ⟨hr, by simp [processUserQuery, hrc], by simp [processUserQuery, hrc2]⟩

theorem C5_witness :
    retrieve envNoIdx.retriever "hi" envNoIdx.topK
      = Except.error RetrievalError.retrievalUnavailable
    ∧ processUserQuery envNoIdx [] "t" "hi"
        = (Except.error (TurnError.turnFailed TurnCause.retrieval), ([] : Store))
    ∧ processUserQuery { envNoIdx with generate := fun _ => some "fallback" } [] "t" "hi"
        = (Except.error (TurnError.turnFailed TurnCause.retrieval), ([] : Store)) :=
  C5_retrieval_unavailable envNoIdx [] "t" "hi" (fun _ => some "fallback") rfl (Or.inl rfl)

/-- Claim C6: on a fixed candidate set, when the re-ranking policy gives
no new ordering signal (all re-rank scores tie) the Retriever's output is
the deduplicated original descending-similarity order truncated to K; and
in general the re-rank sort is stable: candidates whose re-rank scores
tie keep their original relative order (the filter at every score value
is preserved). -/
theorem C6_rerank_stability (env : RetrieverEnv) (q : String) (K : Nat)
    (f : String → Nat → List RetrievalCandidate)
    (key : RetrievalCandidate → Int) (l : List RetrievalCandidate) (v : Int)
    (hidx : env.index = some f)
    (htie : ∀ c d, env.rerankScore q c = env.rerankScore q d) :
    retrieve env q K = Except.ok (List.take K (dedupById [] (f q (env.overfetchFactor * K))))
    ∧ List.filter (fun d => key d = v) (rerankSort key l)
        = List.filter (fun d => key d = v) l := by
  constructor
  · simp [retrieve, hidx, rerankSort_of_const _ _ (fun c _ d _ => htie c d)]
  · exact rerankSort_filter key l v

theorem C6_witness :
    retrieve envW.retriever "q" 2
      = Except.ok (List.take 2 (dedupById [] (searchW "q" (envW.retriever.overfetchFactor * 2))))
    ∧ List.filter (fun d => d.score = 2) (rerankSort (fun c => c.score) [candA, candB, candC])
        = List.filter (fun d => d.score = 2) [candA, candB, candC] :=
  C6_rerank_stability envW.retriever "q" 2 searchW (fun c => c.score)
    [candA, candB, candC] 2 rfl (fun _ _ => rfl)

/-- Claim C7: a thread identifier that was never appended to loads as the
empty turn sequence, the turn's assembled prompt injects no history, and
the absent thread is not an error: with the services available the turn
completes successfully. -/
theorem C7_absent_thread (env : MallAssistant) (store : Store) (tid u : String)
    (f : String → Nat → List RetrievalCandidate)
    (cs : List RetrievalCandidate) (ord : Option Nat)
    (habs : List.find? (fun p => p.1 = tid) store = none)
    (hidx : env.retriever.index = some f)
    (hgen : ∀ p, ∃ r, env.generate p = some r) :
    load store tid = []
    ∧ loadThread store tid = ThreadState.empty
    ∧ (assemblePrompt env (loadThread store tid) u cs ord).history = []
    ∧ ∃ r, (processUserQuery env store tid u).1 = Except.ok r := by
  have hthread : loadThread store tid = ThreadState.empty := by
    simp [loadThread, habs]
  refine ⟨by simp [load, hthread, ThreadState.empty], hthread, ?_, ?_⟩
  · simp [assemblePrompt, hthread, historyWindow, ThreadState.empty]
  · obtain ⟨r, cs', hstep⟩ := processUserQuery_step env store tid u f hidx hgen
    exact ⟨r, by rw [hstep]⟩

theorem C7_witness :
    load ([] : Store) "fresh" = []
    ∧ loadThread ([] : Store) "fresh" = ThreadState.empty
    ∧ (assemblePrompt envW (loadThread ([] : Store) "fresh") "hi" [candA] none).history = []
    ∧ ∃ r, (processUserQuery envW [] "fresh" "hi").1 = Except.ok r :=
  C7_absent_thread envW [] "fresh" "hi" searchW [candA] none rfl rfl (fun _ => ⟨"ok", rfl⟩)

/-- Claim C8: the assembled prompt's history window is exactly the most
recent min(M, N) persisted turns in oldest-first order (a suffix of the
history), while the persisted history is never truncated: after a
successful turn, load still returns all M prior turns followed by the new
user/assistant pair. -/
theorem C8_window_and_untruncated (env : MallAssistant) (store : Store) (tid u resp : String)
    (cs : List RetrievalCandidate) (ord : Option Nat)
    (h : (processUserQuery env store tid u).1 = Except.ok resp) :
    (assemblePrompt env (loadThread store tid) u cs ord).history
        = List.drop ((load store tid).length - env.windowN) (load store tid)
    ∧ ((assemblePrompt env (loadThread store tid) u cs ord).history).length
        = min (load store tid).length env.windowN
    ∧ load (processUserQuery env store tid u).2 tid
        = load store tid ++ [⟨Role.user, u⟩, ⟨Role.assistant, resp⟩] := by
  refine ⟨rfl, ?_, ?_⟩
  · simp only [assemblePrompt, historyWindow, load, List.length_drop]
    omega
  · obtain ⟨cs', hshape⟩ := processUserQuery_ok_shape env store tid u resp h
    rw [hshape]
    simp [load, loadThread_setThread_self]

theorem C8_witness :
    (assemblePrompt envW (loadThread storeW "t") "hi" [candA] none).history
        = List.drop ((load storeW "t").length - envW.windowN) (load storeW "t")
    ∧ ((assemblePrompt envW (loadThread storeW "t") "hi" [candA] none).history).length
        = min (load storeW "t").length envW.windowN
    ∧ load (processUserQuery envW storeW "t" "hi").2 "t"
        = load storeW "t" ++ [⟨Role.user, "hi"⟩, ⟨Role.assistant, "ok"⟩] :=
  C8_window_and_untruncated envW storeW "t" "hi" "ok" [candA] none rfl

/-- Claim C9: conversation state is keyed by thread identifier in the
store, independent of the engine instance: after one engine completes a
turn on a thread, any other engine invoked on the same thread loads a
history that includes the earlier pair, and its own successful turn
appends after that pair. -/
theorem C9_cross_instance (env1 env2 : MallAssistant) (store : Store)
    (tid u1 u2 r1 r2 : String)
    (h1 : (processUserQuery env1 store tid u1).1 = Except.ok r1)
    (h2 : (processUserQuery env2 (processUserQuery env1 store tid u1).2 tid u2).1
        = Except.ok r2) :
    load (processUserQuery env1 store tid u1).2 tid
      = load store tid ++ [⟨Role.user, u1⟩, ⟨Role.assistant, r1⟩]
    ∧ (⟨Role.user, u1⟩ : ConversationTurn) ∈ load (processUserQuery env1 store tid u1).2 tid
    ∧ load (processUserQuery env2 (processUserQuery env1 store tid u1).2 tid u2).2 tid
      = (load store tid ++ [⟨Role.user, u1⟩, ⟨Role.assistant, r1⟩])
          ++ [⟨Role.user, u2⟩, ⟨Role.assistant, r2⟩] := by
  obtain ⟨cs1, hs1⟩ := processUserQuery_ok_shape env1 store tid u1 r1 h1
  have hl1 : load (processUserQuery env1 store tid u1).2 tid
      = load store tid ++ [⟨Role.user, u1⟩, ⟨Role.assistant, r1⟩] := by
    rw [hs1]; simp [load, loadThread_setThread_self]
  obtain ⟨cs2, hs2⟩ := processUserQuery_ok_shape env2 _ tid u2 r2 h2
  have hl2 : load (processUserQuery env2 (processUserQuery env1 store tid u1).2 tid u2).2 tid
      = load (processUserQuery env1 store tid u1).2 tid
          ++ [⟨Role.user, u2⟩, ⟨Role.assistant, r2⟩] := by
    rw [hs2]; simp [load, loadThread_setThread_self]
  refine ⟨hl1, by rw [hl1]; simp, ?_⟩
  rw [hl2, hl1]

theorem C9_witness :
    load (processUserQuery envW [] "t" "q one").2 "t"
      = load ([] : Store) "t" ++ [⟨Role.user, "q one"⟩, ⟨Role.assistant, "ok"⟩]
    ∧ (⟨Role.user, "q one"⟩ : ConversationTurn) ∈ load (processUserQuery envW [] "t" "q one").2 "t"
    ∧ load (processUserQuery envW2 (processUserQuery envW [] "t" "q one").2 "t" "q two").2 "t"
      = (load ([] : Store) "t" ++ [⟨Role.user, "q one"⟩, ⟨Role.assistant, "ok"⟩])
          ++ [⟨Role.user, "q two"⟩, ⟨Role.assistant, "ok"⟩] :=
  C9_cross_instance envW envW2 [] "t" "q one" "q two" "ok" "ok" rfl rfl

/-- Claim C10: the engine exposes a single-turn entry point taking only
the utterance; an API step through get_response returns the stateless
single-turn response and leaves the Conversation State Store, and hence
load of every thread, unchanged. -/
theorem C10_get_response_frame (env : MallAssistant) (store : Store) (u tid : String) :
    (apiStep env store (ApiCall.getResp u)).2 = store
    ∧ (apiStep env store (ApiCall.getResp u)).1 = getResponse env u
    ∧ load (apiStep env store (ApiCall.getResp u)).2 tid = load store tid :=
  ⟨rfl, rfl, rfl⟩

end MallBot
